import Mathlib

/-!
Verification of the record-reading core of libfna (src/fna.c).

The development shallowly embeds the C source: the byte stream (the zf
layer, specified as an external collaborator) is a list of byte values
plus an end-of-file flag, kvec buffers are lists of bytes, pointers into
a record allocation become offsets from its base, and machine integers
are Nat/Int with explicit truncation (`% 256` for uint8_t stores,
`% 65536` for uint16_t stores).  Stream bytes are the values returned by
zfgetc, i.e. 0..255; EOF is the int -1, and a table lookup of a getc
result goes through the (uint8_t) cast, i.e. `% 256`, so that EOF indexes
entry 255 exactly as in the source.
-/

set_option maxRecDepth 4000

/-- Status codes from enum fna_status in fna.h. -/
def FNA_SUCCESS : Int := 0

/-- FNA_ERROR_FILE_OPEN = 1 (declared in fna.h, never assigned in fna.c). -/
def FNA_ERROR_FILE_OPEN : Int := 1

/-- FNA_ERROR_UNKNOWN_FORMAT = 2. -/
def FNA_ERROR_UNKNOWN_FORMAT : Int := 2

/-- FNA_ERROR_BROKEN_FORMAT = 3. -/
def FNA_ERROR_BROKEN_FORMAT : Int := 3

/-- FNA_ERROR_UNSUPPORTED_VERSION = 5 (declared in fna.h, never assigned in fna.c). -/
def FNA_ERROR_UNSUPPORTED_VERSION : Int := 5

/-- FNA_EOF = -1. -/
def FNA_EOF : Int := -1

/-- The zf byte stream: remaining bytes plus the end-of-file flag, which is
set once a read past the last byte has happened (stdio semantics assumed
for the external zf layer, consistent with how fna.c uses zfeof). -/
structure ZfStream where
  data : List Nat
  eof : Bool
deriving Repr, DecidableEq

/-- zfgetc: pop one byte, or return EOF (-1) and set the eof flag. -/
def zfgetc (s : ZfStream) : Int × ZfStream :=
  match s.data with
  | [] => (-1, ⟨[], true⟩)
  | b :: rest => ((b : Int), ⟨rest, s.eof⟩)

/-- Return value of the field readers (struct fna_read_ret_s). -/
structure ReadRet where
  len : Nat
  c : Int
deriving Repr, DecidableEq

/-- space_table from fna.c: '\0', ' ', '\t', '\v' are 1, entry 0xff is 0xff,
everything else 0. -/
def space_table (b : Nat) : Nat :=
  if b = 0 ∨ b = 32 ∨ b = 9 ∨ b = 11 then 1
  else if b = 255 then 255 else 0

/-- delim_line from fna.c: '\r' and '\n' are 1, entry 0xff is 0xff. -/
def delim_line (b : Nat) : Nat :=
  if b = 13 ∨ b = 10 then 1 else if b = 255 then 255 else 0

/-- delim_fasta_seq from fna.c: the 32 non-printable entries are 2,
'>' is 1, entry 0xff is 0xff. -/
def delim_fasta_seq (b : Nat) : Nat :=
  if b < 32 then 2 else if b = 62 then 1 else if b = 255 then 255 else 0

/-- delim_fastq_seq from fna.c: non-printables 2, '@' 1, entry 0xff 0xff. -/
def delim_fastq_seq (b : Nat) : Nat :=
  if b < 32 then 2 else if b = 64 then 1 else if b = 255 then 255 else 0

/-- delim_fastq_qual from fna.c: non-printables 2, '+' 1, entry 0xff 0xff. -/
def delim_fastq_qual (b : Nat) : Nat :=
  if b < 32 then 2 else if b = 43 then 1 else if b = 255 then 255 else 0

/-- delim_gfa_field from fna.c: '\t', '\r', '\n' are 1, entry 0xff is 0xff. -/
def delim_gfa_field (b : Nat) : Nat :=
  if b = 9 ∨ b = 13 ∨ b = 10 then 1 else if b = 255 then 255 else 0

/-- fna_encode_2bit from fna.c: the byte is masked with 0x1f and looked up
in a 32-entry table holding A,C,G,T,U at their masked letter positions
(1,3,7,20,21) and zero everywhere else (N maps to A = 0). -/
def fna_encode_2bit (c : Nat) : Nat :=
  let b := c % 32
  if b = 1 then 0
  else if b = 3 then 1
  else if b = 7 then 2
  else if b = 20 then 3
  else if b = 21 then 3
  else 0

/-- fna_encode_4bit from fna.c: the byte is masked with 0x1f; the table
holds the single-base flags A=1, C=2, G=4, T=U=8, the IUPAC ambiguity
letters as ORs of those flags, and zero everywhere else (N is a gap). -/
def fna_encode_4bit (c : Nat) : Nat :=
  let b := c % 32
  if b = 1 then 1
  else if b = 3 then 2
  else if b = 7 then 4
  else if b = 20 then 8
  else if b = 21 then 8
  else if b = 18 then 5
  else if b = 25 then 10
  else if b = 19 then 6
  else if b = 23 then 9
  else if b = 11 then 12
  else if b = 13 then 3
  else if b = 2 then 14
  else if b = 4 then 13
  else if b = 8 then 11
  else if b = 22 then 7
  else 0

/-- Head loop of fna_read_ascii: consume bytes while space-classified.
A getc at the end of the list yields EOF (-1); since space_table maps the
EOF index 0xff to 0xff, the C loop also stops there. -/
def stripSpacesL : List Nat → Int × List Nat × Bool
  | [] => (-1, [], true)
  | b :: rest =>
    if space_table (b % 256) = 1 then stripSpacesL rest
    else ((b : Int), rest, false)

/-- Body loop of fna_read_ascii: accumulate bytes while the classification
is 0 (data); the accumulated bytes are stored through the uint8_t vector,
hence `% 256`.  All tables used here map the EOF index 0xff to a nonzero
value, so the loop stops at end of input, which the empty case models. -/
def readRestL (table : Nat → Nat) : List Nat → List Nat × Int × List Nat × Bool
  | [] => ([], -1, [], true)
  | b :: rest =>
    if table (b % 256) = 0 then
      let r := readRestL table rest
      ((b % 256) :: r.1, r.2.1, r.2.2.1, r.2.2.2)
    else ([], (b : Int), rest, false)

/-- Tail-trimming pop loop of fna_read_ascii, acting on the reversed field:
pop while space-classified, then push the first non-space byte back.  The
empty result case is unreachable at the call sites because the field always
starts with a byte the head strip classified as non-space. -/
def popSpacesRev : List Nat → List Nat
  | [] => []
  | b :: rest => if space_table (b % 256) = 1 then popSpacesRev rest else b :: rest

/-- Trailing-space trim of an accumulated field (fna_read_ascii tail loop). -/
def fna_trim_tail (l : List Nat) : List Nat :=
  (popSpacesRev l.reverse).reverse

/-- fna_read_ascii from fna.c: strip leading spaces, read until a delimiter,
strip trailing spaces, push a terminating zero byte; returns the trimmed
length and the delimiter (EOF is -1). -/
def fna_read_ascii (table : Nat → Nat) (s : ZfStream) (v : List Nat) :
    ReadRet × List Nat × ZfStream :=
  let t := stripSpacesL s.data
  if t.1 = -1 then ({ len := 0, c := -1 }, v ++ [0], ⟨t.2.1, true⟩)
  else
    let f := readRestL table t.2.1
    let nm := fna_trim_tail ((t.1.toNat % 256) :: f.1)
    ({ len := nm.length, c := f.2.1 }, v ++ nm ++ [0],
      ⟨f.2.2.1, s.eof || f.2.2.2⟩)

/-- Loop of fna_read_skip: consume bytes while (classification & 0x01) = 0.
All tables map the EOF index 0xff to an odd value, so the loop also stops
at end of input, which the empty case models. -/
def skipL (table : Nat → Nat) : List Nat → Int × List Nat × Bool
  | [] => (-1, [], true)
  | b :: rest =>
    if table (b % 256) % 2 = 0 then skipL table rest
    else ((b : Int), rest, false)

/-- fna_read_skip from fna.c: discard bytes until a terminator; the returned
length is always zero. -/
def fna_read_skip (table : Nat → Nat) (s : ZfStream) : ReadRet × ZfStream :=
  let r := skipL table s.data
  ({ len := 0, c := r.1 }, ⟨r.2.1, s.eof || r.2.2⟩)

/-- Common loop of the unpacked sequence readers: stop at an odd (terminator)
class, skip a nonzero even class, accumulate a data byte (through the
uint8_t store).  Returns the raw data bytes in order. -/
def readSeqL (table : Nat → Nat) : List Nat → List Nat × Int × List Nat × Bool
  | [] => ([], -1, [], true)
  | b :: rest =>
    let t := table (b % 256)
    if t % 2 = 1 then ([], (b : Int), rest, false)
    else if t ≠ 0 then readSeqL table rest
    else
      let r := readSeqL table rest
      ((b % 256) :: r.1, r.2.1, r.2.2.1, r.2.2.2)

/-- fna_read_seq_ascii from fna.c: push the data bytes and a terminating
zero, set the status from zfeof. -/
def fna_read_seq_ascii (table : Nat → Nat) (s : ZfStream) (v : List Nat) :
    ReadRet × List Nat × ZfStream × Int :=
  let r := readSeqL table s.data
  let e := s.eof || r.2.2.2
  ({ len := r.1.length, c := r.2.1 }, v ++ (r.1 ++ [0]), ⟨r.2.2.1, e⟩,
    if e then FNA_EOF else FNA_SUCCESS)

/-- fna_read_seq_2bit from fna.c: push the 2-bit code of each data byte
(no terminating zero is pushed by this reader). -/
def fna_read_seq_2bit (table : Nat → Nat) (s : ZfStream) (v : List Nat) :
    ReadRet × List Nat × ZfStream × Int :=
  let r := readSeqL table s.data
  let e := s.eof || r.2.2.2
  ({ len := r.1.length, c := r.2.1 }, v ++ r.1.map fna_encode_2bit,
    ⟨r.2.2.1, e⟩, if e then FNA_EOF else FNA_SUCCESS)

/-- fna_read_seq_4bit from fna.c: push the 4-bit code of each data byte. -/
def fna_read_seq_4bit (table : Nat → Nat) (s : ZfStream) (v : List Nat) :
    ReadRet × List Nat × ZfStream × Int :=
  let r := readSeqL table s.data
  let e := s.eof || r.2.2.2
  ({ len := r.1.length, c := r.2.1 }, v ++ r.1.map fna_encode_4bit,
    ⟨r.2.2.1, e⟩, if e then FNA_EOF else FNA_SUCCESS)

/-- The _fetch macro of the packed readers: read until the next data byte;
a terminator (odd class, including EOF) aborts the enclosing group. -/
def fetchData (table : Nat → Nat) : List Nat → Option Nat × List Nat × Bool
  | [] => (none, [], true)
  | b :: rest =>
    let t := table (b % 256)
    if t = 0 then (some (b % 256), rest, false)
    else if t % 2 = 1 then (none, rest, false)
    else fetchData table rest

/-- Loop of fna_read_seq_2bitpacked: per iteration up to four fetches, each
doing arr = (arr >> 2) | (code << 6) on the uint8_t accumulator; a
terminator at fetch k flushes arr >> (8 - 2k) and adds k elements.  The
fuel argument only bounds the number of iterations; the wrapper passes one
more than the stream length, which the loop can never exhaust since every
iteration consumes at least one byte.  Returns (pushed bytes, element
count, remaining bytes, eof flag). -/
def pack2Loop (table : Nat → Nat) :
    Nat → Nat → List Nat → Bool → List Nat × Nat × List Nat × Bool
  | 0, _, d, e => ([], 0, d, e)
  | fuel + 1, arr, d, e =>
    match fetchData table d with
    | (none, d1, h1) => ([arr >>> 8], 0, d1, e || h1)
    | (some c1, d1, h1) =>
      let a1 := ((arr >>> 2) ||| (fna_encode_2bit c1 <<< 6)) % 256
      match fetchData table d1 with
      | (none, d2, h2) => ([a1 >>> 6], 1, d2, e || h1 || h2)
      | (some c2, d2, h2) =>
        let a2 := ((a1 >>> 2) ||| (fna_encode_2bit c2 <<< 6)) % 256
        match fetchData table d2 with
        | (none, d3, h3) => ([a2 >>> 4], 2, d3, e || h1 || h2 || h3)
        | (some c3, d3, h3) =>
          let a3 := ((a2 >>> 2) ||| (fna_encode_2bit c3 <<< 6)) % 256
          match fetchData table d3 with
          | (none, d4, h4) => ([a3 >>> 2], 3, d4, e || h1 || h2 || h3 || h4)
          | (some c4, d4, h4) =>
            let a4 := ((a3 >>> 2) ||| (fna_encode_2bit c4 <<< 6)) % 256
            let r := pack2Loop table fuel a4 d4 (e || h1 || h2 || h3 || h4)
            (a4 :: r.1, 4 + r.2.1, r.2.2.1, r.2.2.2)

/-- fna_read_seq_2bitpacked from fna.c.  The returned character field is the
last fetched data byte in C (indeterminate when no byte was fetched); it is
never a delimiter of any table used, so it is modelled by the impossible
sentinel -2. -/
def fna_read_seq_2bitpacked (table : Nat → Nat) (s : ZfStream) (v : List Nat) :
    ReadRet × List Nat × ZfStream × Int :=
  let r := pack2Loop table (s.data.length + 1) 0 s.data s.eof
  ({ len := r.2.1, c := -2 }, v ++ r.1, ⟨r.2.2.1, r.2.2.2⟩,
    if r.2.2.2 then FNA_EOF else FNA_SUCCESS)

/-- Loop of fna_read_seq_4bitpacked: per iteration up to two fetches, each
doing arr = (arr >> 2) | (code << 4) exactly as the source does (the
accumulator is shifted by 2 although the elements are 4 bits wide); a
terminator at fetch k flushes arr >> (8 - 4k) and adds k elements. -/
def pack4Loop (table : Nat → Nat) :
    Nat → Nat → List Nat → Bool → List Nat × Nat × List Nat × Bool
  | 0, _, d, e => ([], 0, d, e)
  | fuel + 1, arr, d, e =>
    match fetchData table d with
    | (none, d1, h1) => ([arr >>> 8], 0, d1, e || h1)
    | (some c1, d1, h1) =>
      let a1 := ((arr >>> 2) ||| (fna_encode_4bit c1 <<< 4)) % 256
      match fetchData table d1 with
      | (none, d2, h2) => ([a1 >>> 4], 1, d2, e || h1 || h2)
      | (some c2, d2, h2) =>
        let a2 := ((a1 >>> 2) ||| (fna_encode_4bit c2 <<< 4)) % 256
        let r := pack4Loop table fuel a2 d2 (e || h1 || h2)
        (a2 :: r.1, 2 + r.2.1, r.2.2.1, r.2.2.2)

/-- fna_read_seq_4bitpacked from fna.c (same conventions as the 2-bit one). -/
def fna_read_seq_4bitpacked (table : Nat → Nat) (s : ZfStream) (v : List Nat) :
    ReadRet × List Nat × ZfStream × Int :=
  let r := pack4Loop table (s.data.length + 1) 0 s.data s.eof
  ({ len := r.2.1, c := -2 }, v ++ r.1, ⟨r.2.2.1, r.2.2.2⟩,
    if r.2.2.2 then FNA_EOF else FNA_SUCCESS)

/-- Dispatch over fna->read_seq, indexed by the seq_encode value of
enum fna_flag_encode (0 ascii, 1 2bit, 2 2bitpacked, 3 4bit, 4 4bitpacked;
other values index out of bounds in C and are mapped to the ascii reader
here, which no claim exercises). -/
def fna_read_seq_dispatch (enc : Nat) (table : Nat → Nat) (s : ZfStream)
    (v : List Nat) : ReadRet × List Nat × ZfStream × Int :=
  if enc = 1 then fna_read_seq_2bit table s v
  else if enc = 2 then fna_read_seq_2bitpacked table s v
  else if enc = 3 then fna_read_seq_4bit table s v
  else if enc = 4 then fna_read_seq_4bitpacked table s v
  else fna_read_seq_ascii table s v

/-- Reader context fields used by the record builders (the margin and
encoding fields of struct fna_context_s, after fna_init rounded them). -/
structure FnaCtx where
  seq_encode : Nat := 0
  options : Nat := 0
  head_margin : Nat := 0
  tail_margin : Nat := 0
  seq_head_margin : Nat := 0
  seq_tail_margin : Nat := 0
deriving Repr, DecidableEq

/-- Size in bytes of the fixed record header struct fna_seq_intl_s that
kv_pusha places after the head margin (64 on the 64-bit layout the
offset asserts in fna.c fix).  Only its value as a constant matters. -/
def hdrSize : Nat := 64

/-- A segment record: the single backing allocation as a byte list, and
the field pointers of struct fna_seq_intl_s turned into offsets from the
base of that allocation.  recOff is where the record struct itself sits
(record pointer minus allocation base). -/
structure Segment where
  buf : List Nat
  headMargin : Nat
  recOff : Nat
  nameOff : Nat
  nameLen : Nat
  seqOff : Nat
  seqLen : Nat
  qualOff : Nat
  qualLen : Nat
deriving Repr, DecidableEq

/-- A GFA link record, same conventions as Segment. -/
structure GfaLink where
  buf : List Nat
  fromOff : Nat
  fromLen : Nat
  fromOri : Int
  toOff : Nat
  toLen : Nat
  toOri : Int
  cigOff : Nat
  cigLen : Nat
deriving Repr, DecidableEq

/-- Tagged record union (enum fna_seq_type). -/
inductive FnaRecord where
  | seg : Segment → FnaRecord
  | link : GfaLink → FnaRecord
deriving Repr, DecidableEq

/-- Name bytes of a segment record, read out of its backing allocation. -/
def segName (r : Segment) : List Nat :=
  (r.buf.drop r.nameOff).take r.nameLen

/-- Sequence bytes of a segment record, read out of its backing allocation. -/
def segSeq (r : Segment) : List Nat :=
  (r.buf.drop r.seqOff).take r.seqLen

/-- Name-line read of the FASTA driver (the fna_read_ascii call of
fna_read_fasta, applied to the buffer holding head margin and header). -/
def fasta_name_part (cfg : FnaCtx) (s : ZfStream) : ReadRet × List Nat × ZfStream :=
  fna_read_ascii delim_line s
    (List.replicate cfg.head_margin 0 ++ List.replicate hdrSize 0)

/-- Sequence read of the FASTA driver (the fna->read_seq call of
fna_read_fasta, applied after the seq head margin was pushed). -/
def fasta_seq_part (cfg : FnaCtx) (s : ZfStream) : ReadRet × List Nat × ZfStream × Int :=
  fna_read_seq_dispatch cfg.seq_encode delim_fasta_seq (fasta_name_part cfg s).2.2
    ((fasta_name_part cfg s).2.1 ++ List.replicate cfg.seq_head_margin 0)

/-- fna_read_fasta from fna.c: margins and header, name to end of line,
sequence to the next record marker; nothing is returned when both name and
sequence are empty, otherwise the record is finished with seq tail margin,
terminating zero and tail margin, and the field offsets are computed from
the preceding field sizes exactly as the pointer arithmetic does. -/
def fna_read_fasta (cfg : FnaCtx) (s : ZfStream) : Option Segment × Int × ZfStream :=
  let na := fasta_name_part cfg s
  let sq := fasta_seq_part cfg s
  if na.1.len = 0 ∧ sq.1.len = 0 then (none, sq.2.2.2, sq.2.2.1)
  else
    let buf := sq.2.1 ++ List.replicate cfg.seq_tail_margin 0 ++ [0] ++
      List.replicate cfg.tail_margin 0
    let nOff := cfg.head_margin + hdrSize
    (some { buf := buf, headMargin := cfg.head_margin, recOff := cfg.head_margin,
            nameOff := nOff, nameLen := na.1.len,
            seqOff := nOff + na.1.len + 1 + cfg.seq_head_margin, seqLen := sq.1.len,
            qualOff := nOff + na.1.len + 1 + cfg.seq_head_margin + sq.1.len + 1,
            qualLen := 0 },
      sq.2.2.2, sq.2.2.1)

/-- fna_read_fastq from fna.c: name, sequence to the quality marker, seq
tail margin, skip of the repeated name line, then the quality line is read
or discarded depending on the FNA_SKIP_QUAL bit (options & 1); the
discarding branch contributes length 0 and leaves the status set by the
sequence read. -/
def fna_read_fastq (cfg : FnaCtx) (s : ZfStream) : Option Segment × Int × ZfStream :=
  let na := fna_read_ascii delim_line s
    (List.replicate cfg.head_margin 0 ++ List.replicate hdrSize 0)
  let sq := fna_read_seq_dispatch cfg.seq_encode delim_fastq_qual na.2.2
    (na.2.1 ++ List.replicate cfg.seq_head_margin 0)
  let v2 := sq.2.1 ++ List.replicate cfg.seq_tail_margin 0
  let sk := fna_read_skip delim_line sq.2.2.1
  let q : Nat × List Nat × ZfStream × Int :=
    if cfg.options % 2 = 0 then
      let r := fna_read_seq_dispatch cfg.seq_encode delim_fastq_seq sk.2 v2
      (r.1.len, r.2.1, r.2.2.1, r.2.2.2)
    else
      let r := fna_read_skip delim_fastq_seq sk.2
      (r.1.len, v2, r.2, sq.2.2.2)
  if na.1.len = 0 ∧ sq.1.len = 0 then (none, q.2.2.2, q.2.2.1)
  else
    let buf := q.2.1 ++ List.replicate cfg.tail_margin 0
    let nOff := cfg.head_margin + hdrSize
    (some { buf := buf, headMargin := cfg.head_margin, recOff := cfg.head_margin,
            nameOff := nOff, nameLen := na.1.len,
            seqOff := nOff + na.1.len + 1 + cfg.seq_head_margin, seqLen := sq.1.len,
            qualOff := nOff + na.1.len + 1 + cfg.seq_head_margin + sq.1.len + 1,
            qualLen := q.1 },
      q.2.2.2, q.2.2.1)

/-- fna_read_gfa_seq from fna.c: like the FASTA record builder but with GFA
field delimiters; a trailing tab after the sequence means optional columns
follow, which are skipped to the end of the line. -/
def fna_read_gfa_seq (cfg : FnaCtx) (s : ZfStream) : Option Segment × Int × ZfStream :=
  let na := fna_read_ascii delim_gfa_field s
    (List.replicate cfg.head_margin 0 ++ List.replicate hdrSize 0)
  let sq := fna_read_seq_dispatch cfg.seq_encode delim_gfa_field na.2.2
    (na.2.1 ++ List.replicate cfg.seq_head_margin 0)
  let s2 := if sq.1.c = 9 then (fna_read_skip delim_line sq.2.2.1).2 else sq.2.2.1
  if na.1.len = 0 ∧ sq.1.len = 0 then (none, sq.2.2.2, s2)
  else
    let buf := sq.2.1 ++ List.replicate cfg.seq_tail_margin 0 ++ [0] ++
      List.replicate cfg.tail_margin 0
    let nOff := cfg.head_margin + hdrSize
    (some { buf := buf, headMargin := cfg.head_margin, recOff := cfg.head_margin,
            nameOff := nOff, nameLen := na.1.len,
            seqOff := nOff + na.1.len + 1 + cfg.seq_head_margin, seqLen := sq.1.len,
            qualOff := nOff + na.1.len + 1 + cfg.seq_head_margin + sq.1.len + 1,
            qualLen := 0 },
      sq.2.2.2, s2)

/-- fna_read_gfa_link from fna.c: from-name, one orientation byte compared
against '+' only, a mandatory tab, to-name, orientation, tab, optional
CIGAR; a tab after the CIGAR makes the rest of the line be skipped.  The
incoming status st is retained on success (the source never assigns the
status on this path). -/
def fna_read_gfa_link (cfg : FnaCtx) (st : Int) (s : ZfStream) :
    Option GfaLink × Int × ZfStream :=
  let fr := fna_read_ascii delim_gfa_field s
    (List.replicate cfg.head_margin 0 ++ List.replicate hdrSize 0)
  if fr.1.c ≠ 9 then (none, FNA_ERROR_BROKEN_FORMAT, fr.2.2)
  else
    let o1 := zfgetc fr.2.2
    let t1 := zfgetc o1.2
    if t1.1 ≠ 9 then (none, FNA_ERROR_BROKEN_FORMAT, t1.2)
    else
      let toPart := fna_read_ascii delim_gfa_field t1.2 fr.2.1
      if toPart.1.c ≠ 9 then (none, FNA_ERROR_BROKEN_FORMAT, toPart.2.2)
      else
        let o2 := zfgetc toPart.2.2
        let t2 := zfgetc o2.2
        if t2.1 ≠ 9 then (none, FNA_ERROR_BROKEN_FORMAT, t2.2)
        else
          let cg := fna_read_ascii delim_gfa_field t2.2 toPart.2.1
          let s2 := if cg.1.c = 9 then (fna_read_skip delim_line cg.2.2).2 else cg.2.2
          let fOff := cfg.head_margin + hdrSize
          (some { buf := cg.2.1 ++ List.replicate cfg.tail_margin 0,
                  fromOff := fOff, fromLen := fr.1.len,
                  fromOri := if o1.1 = 43 then 1 else -1,
                  toOff := fOff + fr.1.len + 1, toLen := toPart.1.len,
                  toOri := if o2.1 = 43 then 1 else -1,
                  cigOff := fOff + fr.1.len + 1 + toPart.1.len + 1,
                  cigLen := cg.1.len },
            st, s2)

/-- Loop of fna_read_gfa: one type byte, a mandatory tab, then dispatch on
the type; C and P lines are skipped and the loop continues.  The fuel only
bounds the iteration count; the wrapper passes one more than the stream
length, which cannot be exhausted since every iteration consumes at least
two bytes. -/
def fna_read_gfa_loop (cfg : FnaCtx) (st : Int) :
    Nat → ZfStream → Option FnaRecord × Int × ZfStream
  | 0, s => (none, FNA_EOF, s)
  | fuel + 1, s =>
    match s.data with
    | [] => (none, FNA_EOF, ⟨[], true⟩)
    | c :: rest =>
      match rest with
      | [] => (none, FNA_ERROR_BROKEN_FORMAT, ⟨[], true⟩)
      | t :: rest2 =>
        if t ≠ 9 then (none, FNA_ERROR_BROKEN_FORMAT, ⟨rest2, s.eof⟩)
        else if c = 83 then
          let r := fna_read_gfa_seq cfg ⟨rest2, s.eof⟩
          (r.1.map FnaRecord.seg, r.2.1, r.2.2)
        else if c = 76 then
          let r := fna_read_gfa_link cfg st ⟨rest2, s.eof⟩
          (r.1.map FnaRecord.link, r.2.1, r.2.2)
        else if c = 67 ∨ c = 80 then
          fna_read_gfa_loop cfg st fuel (fna_read_skip delim_line ⟨rest2, s.eof⟩).2
        else (none, FNA_ERROR_BROKEN_FORMAT, ⟨rest2, s.eof⟩)

/-- fna_read_gfa from fna.c (st is the status field value on entry). -/
def fna_read_gfa (cfg : FnaCtx) (st : Int) (s : ZfStream) :
    Option FnaRecord × Int × ZfStream :=
  fna_read_gfa_loop cfg st (s.data.length + 1) s

/-- fna_read_head_fasta from fna.c: skip everything up to and including the
first '>', report EOF or success from the stream state. -/
def fna_read_head_fasta (s : ZfStream) : Int × ZfStream :=
  let r := fna_read_skip delim_fasta_seq s
  (if r.2.eof then FNA_EOF else FNA_SUCCESS, r.2)

/-- fna_read_head_fastq from fna.c: skip up to and including the first '@'. -/
def fna_read_head_fastq (s : ZfStream) : Int × ZfStream :=
  let r := fna_read_skip delim_fastq_seq s
  (if r.2.eof then FNA_EOF else FNA_SUCCESS, r.2)

/-- strtoll base 10 restricted to the digit-only component strings that the
version parser extracts: fold the leading decimal digits. -/
def strtollDec (l : List Nat) : Nat :=
  (l.takeWhile fun b => Nat.ble 48 b && Nat.ble b 57).foldl
    (fun a b => a * 10 + (b - 48)) 0

/-- One component of the version string: bytes up to the next dot or NUL. -/
def versionTok (l : List Nat) : List Nat :=
  l.takeWhile fun b => !(b == 0) && !(b == 46)

/-- fna_parse_version_string from fna.c: three dot-separated decimal
components combined as 0x10000 * major + 0x100 * minor + patch.  The C
loop advances the pointer past each component terminator; inputs whose
buffer ends before three components were found read trailing bytes beyond
the terminator, modelled here as reading nothing. -/
def fna_parse_version_string (l : List Nat) : Nat :=
  let c0 := versionTok l
  let l1 := l.drop (c0.length + 1)
  let c1 := versionTok l1
  let l2 := l1.drop (c1.length + 1)
  let c2 := versionTok l2
  65536 * strtollDec c0 + 256 * strtollDec c1 + strtollDec c2

/-- The literal header magic "H\tVN:Z:". -/
def gfaMagic : List Nat := [72, 9, 86, 78, 58, 90, 58]

/-- fna_read_head_gfa from fna.c: read one line, require the magic, parse
the version; returns (return code, status assignment, stream).  Only the
broken-prefix branch assigns the status field; the unsupported-version
branch merely returns the code. -/
def fna_read_head_gfa (s : ZfStream) : Int × Option Int × ZfStream :=
  let a := fna_read_ascii delim_line s []
  if a.2.1.take 7 = gfaMagic then
    if 65536 ≤ fna_parse_version_string (a.2.1.drop 7) then
      (FNA_SUCCESS, none, a.2.2)
    else (FNA_ERROR_UNSUPPORTED_VERSION, none, a.2.2)
  else (FNA_ERROR_BROKEN_FORMAT, some FNA_ERROR_BROKEN_FORMAT, a.2.2)

/-- Caller parameters (struct fna_params_s). -/
structure FnaParams where
  file_format : Nat := 0
  seq_encode : Nat := 0
  options : Nat := 0
  head_margin : Nat := 0
  tail_margin : Nat := 0
  seq_head_margin : Nat := 0
  seq_tail_margin : Nat := 0
deriving Repr, DecidableEq

/-- The default parameters of fna_init (all zero). -/
def fna_default_params : FnaParams := {}

/-- The _roundup(x, 16) macro of fna.c. -/
def roundup16 (x : Nat) : Nat := ((x + 16 - 1) / 16) * 16

/-- Parameter copying of fna_init: each margin is rounded up with
_roundup(x, 16) and stored into a uint16_t field (hence `% 65536`); a zero
seq_encode is restored to FNA_ASCII, which is itself zero. -/
def fna_init_ctx (p : FnaParams) : FnaCtx :=
  { seq_encode := if p.seq_encode = 0 then 0 else p.seq_encode,
    options := p.options,
    head_margin := roundup16 p.head_margin % 65536,
    tail_margin := roundup16 p.tail_margin % 65536,
    seq_head_margin := roundup16 p.seq_head_margin % 65536,
    seq_tail_margin := roundup16 p.seq_tail_margin % 65536 }

/-- The extension table of fna_init, in source order. -/
def fnaExtTable : List (List Nat × Nat) :=
  [([46, 102, 97, 115, 116, 97], 1),
   ([46, 102, 97, 115], 1),
   ([46, 115, 101, 113], 1),
   ([46, 102, 110, 97], 1),
   ([46, 102, 102, 110], 1),
   ([46, 102, 97], 1),
   ([46, 102, 97, 115, 116, 113], 2),
   ([46, 102, 113], 2),
   ([46, 102, 97, 115, 116, 53], 3),
   ([46, 102, 53], 3),
   ([46, 103, 102, 97], 4)]

/-- The strncmp(path_tail - strlen(ext), ext, strlen(ext)) test of fna_init:
the extension matches when it is the trailing bytes of the path (paths
shorter than a candidate extension cannot match). -/
def extMatch (path e : List Nat) : Bool :=
  if e.length ≤ path.length then path.drop (path.length - e.length) == e
  else false

/-- Step 1 of format detection: the first extension-table entry whose
extension ends the path, 0 (FNA_UNKNOWN) when none matches. -/
def detectExt (path : List Nat) : Nat :=
  match fnaExtTable.find? (fun pr => extMatch path pr.1) with
  | some pr => pr.2
  | none => 0

/-- Step 2 of format detection, the content-sniffing loop of fna_init: every
peeked byte is examined in order, '>' selects FASTA, '@' FASTQ, and 'H'
with a tab in the following position selects GFA; the loop never breaks,
so each later matching byte overwrites the current choice.  The look-ahead
buf[i+1] reads the zero padding of the 33-byte buffer at the window end,
modelled by headD with default 0. -/
def sniffLoop (fmt : Nat) : List Nat → Nat
  | [] => fmt
  | b :: rest =>
    sniffLoop
      (if b = 62 then 1
       else if b = 64 then 2
       else if b = 72 ∧ rest.headD 0 = 9 then 4
       else fmt) rest

/-- Classification of one peeked byte with its successor, written from the
specification text: '>' means FASTA, '@' means FASTQ, 'H' followed by a
tab means GFA. -/
def sniffClass (b nxt : Nat) : Option Nat :=
  if b = 62 then some 1
  else if b = 64 then some 2
  else if b = 72 ∧ nxt = 9 then some 4
  else none

/-- The last classified byte of the peek window wins, written from the
specification text and compared against the source loop below. -/
def lastMatchSpec : List Nat → Option Nat
  | [] => none
  | b :: rest =>
    match lastMatchSpec rest with
    | some f => some f
    | none => sniffClass b (rest.headD 0)

/-- Format resolution of fna_init when no format was configured: extension
first, then the ≤ 32-byte peek. -/
def resolveFileFormat (path content : List Nat) : Nat :=
  let f := detectExt path
  if f = 0 then sniffLoop 0 (content.take 32) else f

/-- The reader handle as returned by fna_init.  The status field of the
malloc-ed context is never initialised by fna_init, so it is modelled as
an Option that starts as none and becomes some v exactly where the source
assigns v; ok records whether initialisation reached the success return. -/
structure FnaHandle where
  file_format : Nat
  status : Option Int
  stream : ZfStream
  ok : Bool
deriving Repr, DecidableEq

/-- Dispatch over the read_head table of fna_init; the FAST5 stub returns
FNA_EOF without touching anything. -/
def fna_read_head (fmt : Nat) (s : ZfStream) : Int × Option Int × ZfStream :=
  if fmt = 1 then
    let r := fna_read_head_fasta s
    (r.1, none, r.2)
  else if fmt = 2 then
    let r := fna_read_head_fastq s
    (r.1, none, r.2)
  else if fmt = 3 then (FNA_EOF, none, s)
  else fna_read_head_gfa s

/-- fna_init from fna.c.  openOk is whether the external zfopen succeeds;
path and content are the file name bytes and file bytes.  On every failure
path the handle is still returned (the C code frees only the stream and
the path copy); the status field is assigned only for the unknown-format
and FAST5 rejections and inside the GFA header check. -/
def fna_init (openOk : Bool) (path content : List Nat) (p : FnaParams) : FnaHandle :=
  if openOk = false then
    { file_format := p.file_format, status := none, stream := ⟨[], false⟩, ok := false }
  else
    let fmt := if p.file_format = 0 then resolveFileFormat path content else p.file_format
    if fmt = 0 then
      { file_format := 0, status := some FNA_ERROR_UNKNOWN_FORMAT,
        stream := ⟨content, false⟩, ok := false }
    else if fmt = 3 then
      { file_format := 3, status := some FNA_ERROR_UNKNOWN_FORMAT,
        stream := ⟨content, false⟩, ok := false }
    else
      let h := fna_read_head fmt ⟨content, false⟩
      { file_format := fmt, status := h.2.1, stream := h.2.2, ok := h.1 = 0 }

/-- The all-default reader context (ascii encoding, zero margins). -/
def fnaCtx0 : FnaCtx := {}

/-- The sniffing loop of fna_init computes exactly the last classified byte
of the window (the loop never breaks, so later matches overwrite earlier
ones); lastMatchSpec is written from the specification text. -/
theorem sniffLoop_eq_lastMatch (l : List Nat) :
    ∀ fmt, sniffLoop fmt l = (lastMatchSpec l).getD fmt := by
  induction l with
  | nil => intro fmt; rfl
  | cons b rest ih =>
    intro fmt
    simp only [sniffLoop, lastMatchSpec]
    rw [ih]
    cases h : lastMatchSpec rest with
    | some f => simp
    | none =>
      simp only [Option.getD_none, sniffClass]
      split_ifs <;> simp

/-- C1: the 4-bit-packed reader shifts its accumulator by 2 instead of 4,
so the two 4-bit codes of a pair overlap in the output byte: reading the
bases T, A produces the byte 0x30 whose nibbles (0 and 3) are not the
codes 8 and 1 of T and A; moreover the flush after a complete group always
appends one extra byte, so the 2-bit-packed read of the four bases A, C,
G, T yields two output bytes, not ceil(4/4) = 1 (the element counts are
reported correctly as 2 and 4). -/
theorem fna_c1_packed_output_bug :
    ((fna_read_seq_4bitpacked delim_fasta_seq ⟨[84, 65], false⟩ []).2.1 = [48, 0] ∧
     (fna_read_seq_4bitpacked delim_fasta_seq ⟨[84, 65], false⟩ []).1.len = 2) ∧
    (fna_encode_4bit 84 = 8 ∧ fna_encode_4bit 65 = 1 ∧
     ¬ (48 % 16 = fna_encode_4bit 84 ∧ 48 / 16 % 16 = fna_encode_4bit 65)) ∧
    ((fna_read_seq_2bitpacked delim_fasta_seq ⟨[65, 67, 71, 84], false⟩ []).2.1.length = 2 ∧
     (fna_read_seq_2bitpacked delim_fasta_seq ⟨[65, 67, 71, 84], false⟩ []).1.len = 4 ∧
     ¬ ((fna_read_seq_2bitpacked delim_fasta_seq
          ⟨[65, 67, 71, 84], false⟩ []).2.1.length = (4 + 3) / 4)) := by
  decide

/-- C2 counterexample: the byte 0x23 ('#') is data-classified by the FASTA
sequence table yet the 2-bit encoder maps it to 1 (the code of C), and the
byte 0x21 ('!') is data-classified yet the 4-bit encoder maps it to 1 (the
flag of A): the claim that every data byte other than the listed letters
encodes to 0 is false. -/
theorem fna_c2_counterexample :
    delim_fasta_seq 35 = 0 ∧ fna_encode_2bit 35 = 1 ∧ ¬ fna_encode_2bit 35 = 0 ∧
    delim_fasta_seq 33 = 0 ∧ fna_encode_4bit 33 = 1 ∧ ¬ fna_encode_4bit 33 = 0 := by
  decide

/-- C2 (amended): both encoders inspect only the low five bits of the byte
(aliasing case and every byte congruent mod 32); bytes whose low five bits
match A, C, G, T, U get 0, 1, 2, 3, 3 at 2-bit width and the flags 1, 2,
4, 8, 8 at 4-bit width; the 4-bit codes of the IUPAC ambiguity letters are
the bitwise ORs of their constituent base flags; N and every byte whose low
five bits match none of the recognised letters map to 0. -/
theorem fna_c2_encoders_amended :
    (∀ c : Nat, fna_encode_2bit c = fna_encode_2bit (c % 32)) ∧
    (fna_encode_2bit 65 = 0 ∧ fna_encode_2bit 67 = 1 ∧ fna_encode_2bit 71 = 2 ∧
     fna_encode_2bit 84 = 3 ∧ fna_encode_2bit 85 = 3 ∧ fna_encode_2bit 78 = 0 ∧
     fna_encode_2bit 97 = 0 ∧ fna_encode_2bit 116 = 3) ∧
    (∀ b, b < 32 → b ≠ 1 → b ≠ 3 → b ≠ 7 → b ≠ 20 → b ≠ 21 →
      fna_encode_2bit b = 0) ∧
    (∀ c : Nat, fna_encode_4bit c = fna_encode_4bit (c % 32)) ∧
    (fna_encode_4bit 65 = 1 ∧ fna_encode_4bit 67 = 2 ∧ fna_encode_4bit 71 = 4 ∧
     fna_encode_4bit 84 = 8 ∧ fna_encode_4bit 85 = 8 ∧ fna_encode_4bit 78 = 0) ∧
    (fna_encode_4bit 82 = (fna_encode_4bit 65 ||| fna_encode_4bit 71) ∧
     fna_encode_4bit 89 = (fna_encode_4bit 67 ||| fna_encode_4bit 84) ∧
     fna_encode_4bit 83 = (fna_encode_4bit 71 ||| fna_encode_4bit 67) ∧
     fna_encode_4bit 87 = (fna_encode_4bit 65 ||| fna_encode_4bit 84) ∧
     fna_encode_4bit 75 = (fna_encode_4bit 71 ||| fna_encode_4bit 84) ∧
     fna_encode_4bit 77 = (fna_encode_4bit 65 ||| fna_encode_4bit 67) ∧
     fna_encode_4bit 66 = (fna_encode_4bit 67 ||| fna_encode_4bit 71 ||| fna_encode_4bit 84) ∧
     fna_encode_4bit 68 = (fna_encode_4bit 65 ||| fna_encode_4bit 71 ||| fna_encode_4bit 84) ∧
     fna_encode_4bit 72 = (fna_encode_4bit 65 ||| fna_encode_4bit 67 ||| fna_encode_4bit 84) ∧
     fna_encode_4bit 86 = (fna_encode_4bit 65 ||| fna_encode_4bit 67 ||| fna_encode_4bit 71)) ∧
    (∀ b, b < 32 → b ∉ [1, 2, 3, 4, 7, 8, 11, 13, 18, 19, 20, 21, 22, 23, 25] →
      fna_encode_4bit b = 0) := by
  refine ⟨fun c => ?_, by decide, ?_, fun c => ?_, by decide, by decide, ?_⟩
  · show fna_encode_2bit c = fna_encode_2bit (c % 32)
    unfold fna_encode_2bit
    rw [Nat.mod_mod_of_dvd c dvd_rfl]
  · intro b hb h1 h3 h7 h20 h21
    interval_cases b <;> first
      | rfl
      | omega
  · show fna_encode_4bit c = fna_encode_4bit (c % 32)
    unfold fna_encode_4bit
    rw [Nat.mod_mod_of_dvd c dvd_rfl]
  · intro b hb hmem
    interval_cases b <;> first
      | rfl
      | exact absurd (by decide) hmem

/-- C2 witness: the amended theorem applied at concrete bytes: 0 (a byte
matching no letter) encodes to 0 under both widths, and the aliasing
equation instantiated at 300. -/
theorem fna_c2_encoders_amended_witness :
    fna_encode_2bit 0 = 0 ∧ fna_encode_4bit 0 = 0 ∧
    fna_encode_2bit 300 = fna_encode_2bit (300 % 32) :=
  ⟨fna_c2_encoders_amended.2.2.1 0 (by decide) (by decide) (by decide) (by decide)
      (by decide) (by decide),
   fna_c2_encoders_amended.2.2.2.2.2.2 0 (by decide) (by decide),
   fna_c2_encoders_amended.1 300⟩

/-- The GFA header line "H\tVN:Z:0.9.0". -/
def gfaHeader09 : List Nat := [72, 9, 86, 78, 58, 90, 58, 48, 46, 57, 46, 48, 10]

/-- C3: on open failure and on a GFA header below version 1.0.0 a handle is
returned, but the status field is never assigned (the enum values
FNA_ERROR_FILE_OPEN and FNA_ERROR_UNSUPPORTED_VERSION exist in fna.h and
are assigned nowhere in fna.c; the header routine computes the code 5 and
returns it, but fna_init discards it): the status stays the uninitialised
malloc content, modelled as none.  Only the unknown-format failure assigns
the status as the claim states. -/
theorem fna_c3_failure_status_not_assigned :
    ((fna_init false [120, 46, 102, 97] [] fna_default_params).status = none ∧
     (fna_init false [120, 46, 102, 97] [] fna_default_params).ok = false) ∧
    ((fna_init true [120, 46, 116, 120, 116] [120, 121, 122] fna_default_params).status =
       some FNA_ERROR_UNKNOWN_FORMAT ∧
     (fna_init true [120, 46, 116, 120, 116] [120, 121, 122] fna_default_params).ok = false) ∧
    ((fna_read_head_gfa ⟨gfaHeader09, false⟩).1 = FNA_ERROR_UNSUPPORTED_VERSION ∧
     (fna_init true [120, 46, 103, 102, 97] gfaHeader09 fna_default_params).status = none ∧
     (fna_init true [120, 46, 103, 102, 97] gfaHeader09 fna_default_params).ok = false) := by
  decide

/-- C4: with no format configured, a matching path extension decides the
grammar and the file content is never consulted; otherwise every byte of
the ≤ 32-byte peek is scanned ('>' FASTA, '@' FASTQ, 'H' followed by a tab
GFA) and the last matching byte wins; if nothing matched, fna_init fails
with the unknown-format status. -/
theorem fna_c4_format_detection (path content : List Nat) :
    (detectExt path ≠ 0 → resolveFileFormat path content = detectExt path) ∧
    (detectExt path = 0 →
      resolveFileFormat path content = (lastMatchSpec (content.take 32)).getD 0) ∧
    (resolveFileFormat path content = 0 →
      (fna_init true path content fna_default_params).status =
        some FNA_ERROR_UNKNOWN_FORMAT ∧
      (fna_init true path content fna_default_params).ok = false) := by
  refine ⟨fun h => ?_, fun h => ?_, fun h => ?_⟩
  · simp [resolveFileFormat, h]
  · simp [resolveFileFormat, h, sniffLoop_eq_lastMatch]
  · simp [fna_init, fna_default_params, h]

/-- C4 witness: the theorem applied at the files of the specification
examples: the path "x.fa" with '@'-style content resolves to FASTA by
extension; an unsuffixed path with content starting "H\tVN:Z:1.0" resolves
to GFA and one starting with '>' to FASTA via the scan; an unsuffixed file
with no marker byte makes fna_init fail with unknown-format. -/
theorem fna_c4_format_detection_witness :
    resolveFileFormat [120, 46, 102, 97] [64, 97, 98, 99] = 1 ∧
    resolveFileFormat [120] [72, 9, 86, 78, 58, 90, 58, 49, 46, 48] = 4 ∧
    resolveFileFormat [120] [62, 97, 98] = 1 ∧
    (fna_init true [120] [120, 121, 122] fna_default_params).status =
      some FNA_ERROR_UNKNOWN_FORMAT := by
  refine ⟨?_, ?_, ?_, ?_⟩
  · have h := (fna_c4_format_detection [120, 46, 102, 97] [64, 97, 98, 99]).1 (by decide)
    rw [h]; decide
  · have h := (fna_c4_format_detection [120] [72, 9, 86, 78, 58, 90, 58, 49, 46, 48]).2.1
      (by decide)
    rw [h]; decide
  · have h := (fna_c4_format_detection [120] [62, 97, 98]).2.1 (by decide)
    rw [h]; decide
  · exact ((fna_c4_format_detection [120] [120, 121, 122]).2.2 (by decide)).1

/-- The skip loop never lengthens the stream. -/
theorem skipL_length (table : Nat → Nat) :
    ∀ l : List Nat, ((skipL table l).2.1).length ≤ l.length := by
  intro l
  induction l with
  | nil => simp [skipL]
  | cons b rest ih =>
    simp only [skipL]
    split
    · exact le_trans ih (Nat.le_succ _)
    · exact Nat.le_succ _

/-- The head strip returns EOF or a byte that is not space-classified. -/
theorem stripSpacesL_nonspace (l : List Nat) :
    (stripSpacesL l).1 = -1 ∨
      space_table ((stripSpacesL l).1.toNat % 256) ≠ 1 := by
  induction l with
  | nil => left; rfl
  | cons b rest ih =>
    simp only [stripSpacesL]
    split
    · exact ih
    · right
      rename_i h
      simpa using h

/-- The pop loop removes a space-classified block from the front of the
reversed field. -/
theorem popSpacesRev_dropped (l : List Nat) :
    ∃ d, l = d ++ popSpacesRev l ∧ ∀ x ∈ d, space_table (x % 256) = 1 := by
  induction l with
  | nil => exact ⟨[], rfl, by simp⟩
  | cons b rest ih =>
    by_cases h : space_table (b % 256) = 1
    · obtain ⟨d, hd, hall⟩ := ih
      refine ⟨b :: d, ?_, ?_⟩
      · simp only [popSpacesRev, if_pos h, List.cons_append, List.cons.injEq,
          true_and]
        exact hd
      · intro x hx
        rcases List.mem_cons.mp hx with rfl | hx2
        · exact h
        · exact hall x hx2
    · exact ⟨[], by simp [popSpacesRev, h], by simp⟩

/-- A nonempty pop-loop result starts with a non-space byte. -/
theorem popSpacesRev_head_nonspace :
    ∀ (l : List Nat) (x : Nat) (xs : List Nat),
      popSpacesRev l = x :: xs → space_table (x % 256) ≠ 1 := by
  intro l
  induction l with
  | nil => intro x xs h; simp [popSpacesRev] at h
  | cons b rest ih =>
    intro x xs h
    by_cases hb : space_table (b % 256) = 1
    · rw [popSpacesRev, if_pos hb] at h
      exact ih x xs h
    · rw [popSpacesRev, if_neg hb] at h
      injection h with h1 h2
      subst h1
      exact hb

/-- The tail trim of a field that starts with a non-space byte keeps that
first byte and ends with a non-space byte. -/
theorem fna_trim_tail_cons (b : Nat) (l : List Nat)
    (hb : space_table (b % 256) ≠ 1) :
    (fna_trim_tail (b :: l)).head? = some b ∧
    ∃ y, (fna_trim_tail (b :: l)).getLast? = some y ∧
      space_table (y % 256) ≠ 1 := by
  obtain ⟨d, hd, hall⟩ := popSpacesRev_dropped ((b :: l).reverse)
  have hpne : popSpacesRev ((b :: l).reverse) ≠ [] := by
    intro h0
    rw [h0, List.append_nil] at hd
    have hbmem : b ∈ (b :: l).reverse := by simp
    rw [hd] at hbmem
    exact hb (hall b hbmem)
  have hlast : (popSpacesRev ((b :: l).reverse)).getLast? = some b := by
    have h1 : ((b :: l).reverse).getLast? = some b := by
      rw [List.getLast?_reverse]
      rfl
    rw [hd, List.getLast?_append_of_ne_nil _ hpne] at h1
    exact h1
  refine ⟨?_, ?_⟩
  · show ((popSpacesRev ((b :: l).reverse)).reverse).head? = some b
    rw [List.head?_reverse]
    exact hlast
  · obtain ⟨x, xs, hx⟩ := List.exists_cons_of_ne_nil hpne
    refine ⟨x, ?_, ?_⟩
    · show ((popSpacesRev ((b :: l).reverse)).reverse).getLast? = some x
      rw [List.getLast?_reverse, hx]
      rfl
    · exact popSpacesRev_head_nonspace _ x xs hx

/-- Shape of the fna_read_ascii output: the buffer grows by the trimmed
name followed by one zero byte, the returned length is the name length,
and a nonempty name neither starts nor ends with a space-classified byte. -/
theorem fna_read_ascii_spec (table : Nat → Nat) (s : ZfStream) (v : List Nat) :
    ∃ nm : List Nat,
      (fna_read_ascii table s v).2.1 = v ++ nm ++ [0] ∧
      (fna_read_ascii table s v).1.len = nm.length ∧
      (nm = [] ∨
        ((∃ x, nm.head? = some x ∧ space_table (x % 256) ≠ 1) ∧
         (∃ y, nm.getLast? = some y ∧ space_table (y % 256) ≠ 1))) := by
  unfold fna_read_ascii
  by_cases h : (stripSpacesL s.data).1 = -1
  · rw [if_pos h]
    exact ⟨[], by simp, rfl, Or.inl rfl⟩
  · rw [if_neg h]
    have hb : space_table ((stripSpacesL s.data).1.toNat % 256 % 256) ≠ 1 := by
      rw [Nat.mod_mod_of_dvd _ dvd_rfl]
      rcases stripSpacesL_nonspace s.data with hc | hc
      · exact absurd hc h
      · exact hc
    obtain ⟨hhead, y, hylast, hynon⟩ :=
      fna_trim_tail_cons ((stripSpacesL s.data).1.toNat % 256)
        (readRestL table (stripSpacesL s.data).2.1).1 hb
    refine ⟨_, rfl, rfl, Or.inr ⟨⟨_, hhead, ?_⟩, ⟨y, hylast, hynon⟩⟩⟩
    rw [Nat.mod_mod_of_dvd _ dvd_rfl]
    rcases stripSpacesL_nonspace s.data with hc | hc
    · exact absurd hc h
    · exact hc

/-- Every sequence reader only appends to the buffer it is given. -/
theorem fna_read_seq_dispatch_append (enc : Nat) (table : Nat → Nat)
    (s : ZfStream) (v : List Nat) :
    ∃ ex, (fna_read_seq_dispatch enc table s v).2.1 = v ++ ex := by
  unfold fna_read_seq_dispatch
  split_ifs <;> exact ⟨_, rfl⟩

/-- Indexing facts for a buffer of the shape prefix, name, zero terminator,
remainder: the terminator sits right after the name, and the first and last
name bytes are at the expected offsets. -/
theorem buf_name_region (pre nm rest : List Nat) :
    (pre ++ nm ++ [0] ++ rest)[pre.length + nm.length]? = some 0 ∧
    (nm ≠ [] →
      (pre ++ nm ++ [0] ++ rest)[pre.length]? = nm.head? ∧
      (pre ++ nm ++ [0] ++ rest)[pre.length + nm.length - 1]? = nm.getLast?) := by
  simp only [List.append_assoc]
  refine ⟨?_, fun hne => ⟨?_, ?_⟩⟩
  · rw [List.getElem?_append_right (by omega : pre.length ≤ pre.length + nm.length)]
    have he : pre.length + nm.length - pre.length = nm.length := by omega
    rw [he, List.getElem?_append_right (le_refl nm.length)]
    simp
  · rw [List.getElem?_append_right (le_refl pre.length)]
    rw [Nat.sub_self]
    cases nm with
    | nil => exact absurd rfl hne
    | cons a t => simp
  · have h1 : 1 ≤ nm.length := List.length_pos.mpr hne
    rw [List.getElem?_append_right (by omega : pre.length ≤ pre.length + nm.length - 1)]
    have he : pre.length + nm.length - 1 - pre.length = nm.length - 1 := by omega
    rw [he, List.getElem?_append_left (by omega : nm.length - 1 < nm.length)]
    rw [List.getLast?_eq_getElem?]

/-- Shape of a returned FASTA record: its allocation is head margin and
header, then the trimmed name, its zero terminator and the remaining
fields, and the stored offsets point at them. -/
theorem fna_read_fasta_shape (cfg : FnaCtx) (s : ZfStream) (r : Segment)
    (h : (fna_read_fasta cfg s).1 = some r) :
    ∃ nm rest,
      r.buf = (List.replicate cfg.head_margin 0 ++ List.replicate hdrSize 0) ++
        nm ++ [0] ++ rest ∧
      r.headMargin = cfg.head_margin ∧ r.recOff = cfg.head_margin ∧
      r.nameOff = cfg.head_margin + hdrSize ∧ r.nameLen = nm.length ∧
      (nm = [] ∨
        ((∃ x, nm.head? = some x ∧ space_table (x % 256) ≠ 1) ∧
         (∃ y, nm.getLast? = some y ∧ space_table (y % 256) ≠ 1))) := by
  obtain ⟨nm, hv, hlen, hprops⟩ := fna_read_ascii_spec delim_line s
    (List.replicate cfg.head_margin 0 ++ List.replicate hdrSize 0)
  have hv2 : (fasta_name_part cfg s).2.1 =
      (List.replicate cfg.head_margin 0 ++ List.replicate hdrSize 0) ++ nm ++ [0] := hv
  have hlen2 : (fasta_name_part cfg s).1.len = nm.length := hlen
  obtain ⟨ex, hex⟩ := fna_read_seq_dispatch_append cfg.seq_encode delim_fasta_seq
    (fasta_name_part cfg s).2.2
    ((fasta_name_part cfg s).2.1 ++ List.replicate cfg.seq_head_margin 0)
  have hex2 : (fasta_seq_part cfg s).2.1 =
      ((fasta_name_part cfg s).2.1 ++ List.replicate cfg.seq_head_margin 0) ++ ex := hex
  simp only [fna_read_fasta] at h
  by_cases hc : (fasta_name_part cfg s).1.len = 0 ∧ (fasta_seq_part cfg s).1.len = 0
  · rw [if_pos hc] at h
    simp at h
  · rw [if_neg hc] at h
    simp only [Option.some.injEq] at h
    subst h
    refine ⟨nm, List.replicate cfg.seq_head_margin 0 ++ ex ++
      List.replicate cfg.seq_tail_margin 0 ++ [0] ++
      List.replicate cfg.tail_margin 0, ?_, rfl, rfl, rfl, hlen2, hprops⟩
    show (fasta_seq_part cfg s).2.1 ++ List.replicate cfg.seq_tail_margin 0 ++ [0] ++
      List.replicate cfg.tail_margin 0 = _
    rw [hex2, hv2]
    simp [List.append_assoc]

/-- Shape of a returned FASTQ record (same layout of the name region). -/
theorem fna_read_fastq_shape (cfg : FnaCtx) (s : ZfStream) (r : Segment)
    (h : (fna_read_fastq cfg s).1 = some r) :
    ∃ nm rest,
      r.buf = (List.replicate cfg.head_margin 0 ++ List.replicate hdrSize 0) ++
        nm ++ [0] ++ rest ∧
      r.headMargin = cfg.head_margin ∧ r.recOff = cfg.head_margin ∧
      r.nameOff = cfg.head_margin + hdrSize ∧ r.nameLen = nm.length ∧
      (nm = [] ∨
        ((∃ x, nm.head? = some x ∧ space_table (x % 256) ≠ 1) ∧
         (∃ y, nm.getLast? = some y ∧ space_table (y % 256) ≠ 1))) := by
  obtain ⟨nm, hv, hlen, hprops⟩ := fna_read_ascii_spec delim_line s
    (List.replicate cfg.head_margin 0 ++ List.replicate hdrSize 0)
  obtain ⟨ex, hex⟩ := fna_read_seq_dispatch_append cfg.seq_encode delim_fastq_qual
    (fna_read_ascii delim_line s
      (List.replicate cfg.head_margin 0 ++ List.replicate hdrSize 0)).2.2
    ((fna_read_ascii delim_line s
      (List.replicate cfg.head_margin 0 ++ List.replicate hdrSize 0)).2.1 ++
      List.replicate cfg.seq_head_margin 0)
  simp only [fna_read_fastq] at h
  by_cases hc : (fna_read_ascii delim_line s
      (List.replicate cfg.head_margin 0 ++ List.replicate hdrSize 0)).1.len = 0 ∧
      (fna_read_seq_dispatch cfg.seq_encode delim_fastq_qual
        (fna_read_ascii delim_line s
          (List.replicate cfg.head_margin 0 ++ List.replicate hdrSize 0)).2.2
        ((fna_read_ascii delim_line s
          (List.replicate cfg.head_margin 0 ++ List.replicate hdrSize 0)).2.1 ++
          List.replicate cfg.seq_head_margin 0)).1.len = 0
  · rw [if_pos hc] at h
    simp at h
  · rw [if_neg hc] at h
    simp only [Option.some.injEq] at h
    subst h
    by_cases ho : cfg.options % 2 = 0
    · obtain ⟨ex2, hex2⟩ := fna_read_seq_dispatch_append cfg.seq_encode delim_fastq_seq
        (fna_read_skip delim_line
          (fna_read_seq_dispatch cfg.seq_encode delim_fastq_qual
            (fna_read_ascii delim_line s
              (List.replicate cfg.head_margin 0 ++ List.replicate hdrSize 0)).2.2
            ((fna_read_ascii delim_line s
              (List.replicate cfg.head_margin 0 ++ List.replicate hdrSize 0)).2.1 ++
              List.replicate cfg.seq_head_margin 0)).2.2.1).2
        ((fna_read_seq_dispatch cfg.seq_encode delim_fastq_qual
            (fna_read_ascii delim_line s
              (List.replicate cfg.head_margin 0 ++ List.replicate hdrSize 0)).2.2
            ((fna_read_ascii delim_line s
              (List.replicate cfg.head_margin 0 ++ List.replicate hdrSize 0)).2.1 ++
              List.replicate cfg.seq_head_margin 0)).2.1 ++
          List.replicate cfg.seq_tail_margin 0)
      refine ⟨nm, List.replicate cfg.seq_head_margin 0 ++ ex ++
        List.replicate cfg.seq_tail_margin 0 ++ ex2 ++
        List.replicate cfg.tail_margin 0, ?_, rfl, rfl, rfl, hlen, hprops⟩
      show (if cfg.options % 2 = 0 then _ else _ :
        Nat × List Nat × ZfStream × Int).2.1 ++ List.replicate cfg.tail_margin 0 = _
      rw [if_pos ho]
      show (fna_read_seq_dispatch cfg.seq_encode delim_fastq_seq _ _).2.1 ++
        List.replicate cfg.tail_margin 0 = _
      rw [hex2, hex, hv]
      simp [List.append_assoc]
    · refine ⟨nm, List.replicate cfg.seq_head_margin 0 ++ ex ++
        List.replicate cfg.seq_tail_margin 0 ++
        List.replicate cfg.tail_margin 0, ?_, rfl, rfl, rfl, hlen, hprops⟩
      show (if cfg.options % 2 = 0 then _ else _ :
        Nat × List Nat × ZfStream × Int).2.1 ++ List.replicate cfg.tail_margin 0 = _
      rw [if_neg ho]
      show (fna_read_seq_dispatch cfg.seq_encode delim_fastq_qual _ _).2.1 ++
        List.replicate cfg.seq_tail_margin 0 ++ List.replicate cfg.tail_margin 0 = _
      rw [hex, hv]
      simp [List.append_assoc]

/-- Shape of a returned GFA segment record (same layout of the name region). -/
theorem fna_read_gfa_seq_shape (cfg : FnaCtx) (s : ZfStream) (r : Segment)
    (h : (fna_read_gfa_seq cfg s).1 = some r) :
    ∃ nm rest,
      r.buf = (List.replicate cfg.head_margin 0 ++ List.replicate hdrSize 0) ++
        nm ++ [0] ++ rest ∧
      r.headMargin = cfg.head_margin ∧ r.recOff = cfg.head_margin ∧
      r.nameOff = cfg.head_margin + hdrSize ∧ r.nameLen = nm.length ∧
      (nm = [] ∨
        ((∃ x, nm.head? = some x ∧ space_table (x % 256) ≠ 1) ∧
         (∃ y, nm.getLast? = some y ∧ space_table (y % 256) ≠ 1))) := by
  obtain ⟨nm, hv, hlen, hprops⟩ := fna_read_ascii_spec delim_gfa_field s
    (List.replicate cfg.head_margin 0 ++ List.replicate hdrSize 0)
  obtain ⟨ex, hex⟩ := fna_read_seq_dispatch_append cfg.seq_encode delim_gfa_field
    (fna_read_ascii delim_gfa_field s
      (List.replicate cfg.head_margin 0 ++ List.replicate hdrSize 0)).2.2
    ((fna_read_ascii delim_gfa_field s
      (List.replicate cfg.head_margin 0 ++ List.replicate hdrSize 0)).2.1 ++
      List.replicate cfg.seq_head_margin 0)
  simp only [fna_read_gfa_seq] at h
  by_cases hc : (fna_read_ascii delim_gfa_field s
      (List.replicate cfg.head_margin 0 ++ List.replicate hdrSize 0)).1.len = 0 ∧
      (fna_read_seq_dispatch cfg.seq_encode delim_gfa_field
        (fna_read_ascii delim_gfa_field s
          (List.replicate cfg.head_margin 0 ++ List.replicate hdrSize 0)).2.2
        ((fna_read_ascii delim_gfa_field s
          (List.replicate cfg.head_margin 0 ++ List.replicate hdrSize 0)).2.1 ++
          List.replicate cfg.seq_head_margin 0)).1.len = 0
  · rw [if_pos hc] at h
    simp at h
  · rw [if_neg hc] at h
    simp only [Option.some.injEq] at h
    subst h
    refine ⟨nm, List.replicate cfg.seq_head_margin 0 ++ ex ++
      List.replicate cfg.seq_tail_margin 0 ++ [0] ++
      List.replicate cfg.tail_margin 0, ?_, rfl, rfl, rfl, hlen, hprops⟩
    show (fna_read_seq_dispatch cfg.seq_encode delim_gfa_field _ _).2.1 ++
      List.replicate cfg.seq_tail_margin 0 ++ [0] ++
      List.replicate cfg.tail_margin 0 = _
    rw [hex, hv]
    simp [List.append_assoc]

/-- The FASTA input ">a\nACGT\n>b\nTT\n". -/
def fastaInput : List Nat := [62, 97, 10, 65, 67, 71, 84, 10, 62, 98, 10, 84, 84, 10]

/-- The stream after the FASTA header skip. -/
def fastaS1 : ZfStream := (fna_read_head_fasta ⟨fastaInput, false⟩).2

/-- The first, second and third reads of the FASTA input. -/
def fastaR1 : Option Segment × Int × ZfStream := fna_read_fasta fnaCtx0 fastaS1

/-- The second read of the FASTA input. -/
def fastaR2 : Option Segment × Int × ZfStream := fna_read_fasta fnaCtx0 fastaR1.2.2

/-- The third read of the FASTA input. -/
def fastaR3 : Option Segment × Int × ZfStream := fna_read_fasta fnaCtx0 fastaR2.2.2

/-- C5: reading ">a\nACGT\n>b\nTT\n" with the default (ascii) configuration
yields the record (name "a", sequence "ACGT"), then (name "b", sequence
"TT"), and the third read returns no record with the EOF status; and in
general a FASTA read returns no record exactly when both the parsed name
and the parsed sequence are empty. -/
theorem fna_c5_fasta_end_to_end :
    (fastaR1.1.map segName = some [97] ∧
     fastaR1.1.map segSeq = some [65, 67, 71, 84]) ∧
    (fastaR2.1.map segName = some [98] ∧
     fastaR2.1.map segSeq = some [84, 84]) ∧
    (fastaR3.1 = none ∧ fastaR3.2.1 = FNA_EOF) ∧
    (∀ (cfg : FnaCtx) (s : ZfStream),
      (fna_read_fasta cfg s).1 = none ↔
        (fasta_name_part cfg s).1.len = 0 ∧ (fasta_seq_part cfg s).1.len = 0) := by
  refine ⟨by decide, by decide, by decide, fun cfg s => ?_⟩
  simp only [fna_read_fasta]
  split
  · rename_i h
    simpa using h
  · rename_i h
    simpa using h

/-- The FASTQ input "@a\nACGT\n+a\nNNNN\n". -/
def fastqInput : List Nat :=
  [64, 97, 10, 65, 67, 71, 84, 10, 43, 97, 10, 78, 78, 78, 78, 10]

/-- The reader context with the skip-quality option set. -/
def fnaCtxSkipQ : FnaCtx := { options := 1 }

/-- The first read of the FASTQ input under skip-quality. -/
def fastqR1 : Option Segment × Int × ZfStream :=
  fna_read_fastq fnaCtxSkipQ (fna_read_head_fastq ⟨fastqInput, false⟩).2

/-- The second read of the FASTQ input under skip-quality. -/
def fastqR2 : Option Segment × Int × ZfStream := fna_read_fastq fnaCtxSkipQ fastqR1.2.2

/-- C6: with the skip-quality option set, "@a\nACGT\n+a\nNNNN\n" yields
exactly one record, with name "a", sequence "ACGT" and quality length 0
(the second read returns nothing with the EOF status); and in general,
whenever the skip-quality bit is set, every record a FASTQ read returns
has quality length 0 while name and sequence are parsed as usual. -/
theorem fna_c6_fastq_skip_quality :
    (fastqR1.1.map segName = some [97] ∧
     fastqR1.1.map segSeq = some [65, 67, 71, 84] ∧
     fastqR1.1.map Segment.qualLen = some 0) ∧
    (fastqR2.1 = none ∧ fastqR2.2.1 = FNA_EOF) ∧
    (∀ (cfg : FnaCtx) (s : ZfStream) (r : Segment),
      cfg.options % 2 = 1 → (fna_read_fastq cfg s).1 = some r → r.qualLen = 0) := by
  refine ⟨by decide, by decide, fun cfg s r hopt h => ?_⟩
  simp only [fna_read_fastq] at h
  split at h
  · simp at h
  · simp only [Option.some.injEq] at h
    subst h
    show (if cfg.options % 2 = 0 then _ else _ : Nat × List Nat × ZfStream × Int).1 = 0
    rw [if_neg (by omega)]
    rfl

/-- C6 witness: the general statement applied to the concrete skip-quality
read above. -/
theorem fna_c6_fastq_skip_quality_witness :
    fnaCtxSkipQ.options % 2 = 1 ∧
    fastqR1.1 = some (fastqR1.1.getD
      { buf := [], headMargin := 0, recOff := 0, nameOff := 0, nameLen := 0,
        seqOff := 0, seqLen := 0, qualOff := 0, qualLen := 1 }) ∧
    (fastqR1.1.getD
      { buf := [], headMargin := 0, recOff := 0, nameOff := 0, nameLen := 0,
        seqOff := 0, seqLen := 0, qualOff := 0, qualLen := 1 }).qualLen = 0 :=
  ⟨by decide, by decide,
   fna_c6_fastq_skip_quality.2.2 fnaCtxSkipQ
     (fna_read_head_fastq ⟨fastqInput, false⟩).2 _ (by decide) (by decide)⟩

/-- fna_read_skip never lengthens the stream. -/
theorem fna_read_skip_length (table : Nat → Nat) (s : ZfStream) :
    (fna_read_skip table s).2.data.length ≤ s.data.length :=
  skipL_length table s.data

/-- The GFA loop result does not depend on the fuel bound once the bound
exceeds the stream length (each iteration consumes at least two bytes). -/
theorem fna_read_gfa_loop_fuel (cfg : FnaCtx) (st : Int) :
    ∀ (f g : Nat) (s : ZfStream), s.data.length < f → s.data.length < g →
      fna_read_gfa_loop cfg st f s = fna_read_gfa_loop cfg st g s := by
  intro f
  induction f with
  | zero => intro g s hf hg; exact absurd hf (Nat.not_lt_zero _)
  | succ f ih =>
    intro g s hf hg
    cases g with
    | zero => exact absurd hg (Nat.not_lt_zero _)
    | succ g2 =>
      cases hs : s.data with
      | nil => simp [fna_read_gfa_loop, hs]
      | cons c rest =>
        cases rest with
        | nil => simp [fna_read_gfa_loop, hs]
        | cons t rest2 =>
          have hskip : (fna_read_skip delim_line ⟨rest2, s.eof⟩).2.data.length ≤
              rest2.length := fna_read_skip_length delim_line ⟨rest2, s.eof⟩
          have hf2 : rest2.length + 1 < f := by rw [hs] at hf; simpa using hf
          have hg2 : rest2.length + 1 < g2 := by rw [hs] at hg; simpa using hg
          simp only [fna_read_gfa_loop, hs]
          split_ifs <;> try rfl
          exact ih g2 (fna_read_skip delim_line ⟨rest2, s.eof⟩).2
            (by omega) (by omega)

/-- C7: the GFA body read returns no record with the EOF status when the
stream ends before a type byte; consumes a type byte and requires a tab
right after it, failing broken-format otherwise; fails broken-format on a
tab-terminated type byte outside S, L, C, P; and on C and P lines discards
the line and continues with the next one. -/
theorem fna_c7_gfa_type_dispatch :
    (∀ (cfg : FnaCtx) (st : Int) (e : Bool),
      fna_read_gfa cfg st ⟨[], e⟩ = (none, FNA_EOF, ⟨[], true⟩)) ∧
    (∀ (cfg : FnaCtx) (st : Int) (e : Bool) (c : Nat),
      fna_read_gfa cfg st ⟨[c], e⟩ = (none, FNA_ERROR_BROKEN_FORMAT, ⟨[], true⟩)) ∧
    (∀ (cfg : FnaCtx) (st : Int) (e : Bool) (c t : Nat) (rest2 : List Nat), t ≠ 9 →
      fna_read_gfa cfg st ⟨c :: t :: rest2, e⟩ =
        (none, FNA_ERROR_BROKEN_FORMAT, ⟨rest2, e⟩)) ∧
    (∀ (cfg : FnaCtx) (st : Int) (e : Bool) (c : Nat) (rest2 : List Nat),
      c ≠ 83 → c ≠ 76 → c ≠ 67 → c ≠ 80 →
      fna_read_gfa cfg st ⟨c :: 9 :: rest2, e⟩ =
        (none, FNA_ERROR_BROKEN_FORMAT, ⟨rest2, e⟩)) ∧
    (∀ (cfg : FnaCtx) (st : Int) (e : Bool) (c : Nat) (rest2 : List Nat),
      c = 67 ∨ c = 80 →
      fna_read_gfa cfg st ⟨c :: 9 :: rest2, e⟩ =
        fna_read_gfa cfg st (fna_read_skip delim_line ⟨rest2, e⟩).2) := by
  refine ⟨fun cfg st e => rfl, fun cfg st e c => rfl,
    fun cfg st e c t rest2 ht => ?_, fun cfg st e c rest2 h83 h76 h67 h80 => ?_,
    fun cfg st e c rest2 hc => ?_⟩
  · show fna_read_gfa_loop cfg st ((c :: t :: rest2).length + 1) ⟨c :: t :: rest2, e⟩ = _
    simp [fna_read_gfa_loop, ht]
  · show fna_read_gfa_loop cfg st ((c :: 9 :: rest2).length + 1) ⟨c :: 9 :: rest2, e⟩ = _
    simp [fna_read_gfa_loop, h83, h76, h67, h80]
  · have hskip : (fna_read_skip delim_line ⟨rest2, e⟩).2.data.length ≤
        rest2.length := fna_read_skip_length delim_line ⟨rest2, e⟩
    have hstep : fna_read_gfa cfg st ⟨c :: 9 :: rest2, e⟩ =
        fna_read_gfa_loop cfg st (rest2.length + 2)
          (fna_read_skip delim_line ⟨rest2, e⟩).2 := by
      show fna_read_gfa_loop cfg st ((c :: 9 :: rest2).length + 1)
        ⟨c :: 9 :: rest2, e⟩ = _
      rcases hc with rfl | rfl <;> simp [fna_read_gfa_loop]
    rw [hstep]
    exact fna_read_gfa_loop_fuel cfg st (rest2.length + 2) _ _
      (by omega) (by omega)

/-- C7 witness: the dispatch theorem applied at concrete streams: empty
input, a lone type byte, a type byte followed by a non-tab, an unknown
type byte followed by a tab, and a C line that is skipped so that the
following S line decides the result. -/
theorem fna_c7_gfa_type_dispatch_witness :
    fna_read_gfa fnaCtx0 0 ⟨[], false⟩ = (none, FNA_EOF, ⟨[], true⟩) ∧
    fna_read_gfa fnaCtx0 0 ⟨[83], false⟩ = (none, FNA_ERROR_BROKEN_FORMAT, ⟨[], true⟩) ∧
    fna_read_gfa fnaCtx0 0 ⟨[83, 65, 7], false⟩ =
      (none, FNA_ERROR_BROKEN_FORMAT, ⟨[7], false⟩) ∧
    fna_read_gfa fnaCtx0 0 ⟨[88, 9, 7], false⟩ =
      (none, FNA_ERROR_BROKEN_FORMAT, ⟨[7], false⟩) ∧
    fna_read_gfa fnaCtx0 0 ⟨[67, 9, 120, 10, 83, 9, 49, 9, 65, 67, 10], false⟩ =
      fna_read_gfa fnaCtx0 0
        (fna_read_skip delim_line ⟨[120, 10, 83, 9, 49, 9, 65, 67, 10], false⟩).2 :=
  ⟨fna_c7_gfa_type_dispatch.1 fnaCtx0 0 false,
   fna_c7_gfa_type_dispatch.2.1 fnaCtx0 0 false 83,
   fna_c7_gfa_type_dispatch.2.2.1 fnaCtx0 0 false 83 65 [7] (by decide),
   fna_c7_gfa_type_dispatch.2.2.2.1 fnaCtx0 0 false 88 [7]
     (by decide) (by decide) (by decide) (by decide),
   fna_c7_gfa_type_dispatch.2.2.2.2 fnaCtx0 0 false 67
     [120, 10, 83, 9, 49, 9, 65, 67, 10] (Or.inl rfl)⟩

/-- Orientation pair of a link record, none for anything else. -/
def linkOris : Option FnaRecord → Option (Int × Int)
  | some (FnaRecord.link l) => some (l.fromOri, l.toOri)
  | _ => none

/-- C9: on a GFA L line each orientation column is decided by comparing its
single byte against '+' only: '+' gives +1 and any other byte gives -1,
and no orientation byte by itself makes the read fail; the read fails
broken-format exactly when the byte after the orientation is not a tab. -/
theorem fna_c9_link_orientation (b1 b2 : Nat) (st : Int)
    (h1 : b1 < 256) (h2 : b2 < 256) :
    linkOris (fna_read_gfa fnaCtx0 st
        ⟨[76, 9, 49, 9, b1, 9, 50, 9, b2, 9, 52, 77, 10], false⟩).1 =
      some (if (b1 : Int) = 43 then 1 else -1,
            if (b2 : Int) = 43 then 1 else -1) ∧
    (∀ (x : Nat) (rest : List Nat), x ≠ 9 →
      (fna_read_gfa fnaCtx0 st ⟨[76, 9, 49, 9, b1, x] ++ rest, false⟩).1 = none ∧
      (fna_read_gfa fnaCtx0 st ⟨[76, 9, 49, 9, b1, x] ++ rest, false⟩).2.1 =
        FNA_ERROR_BROKEN_FORMAT) := by
  constructor
  · rfl
  · intro x rest hx
    have hxi : ((x : Nat) : Int) ≠ 9 := by exact_mod_cast hx
    constructor <;>
      simp [fna_read_gfa, fna_read_gfa_loop, fna_read_gfa_link, fna_read_ascii,
        stripSpacesL, readRestL, fna_trim_tail, popSpacesRev, space_table,
        delim_gfa_field, zfgetc, hxi]

/-- C9 witness: the orientation theorem applied at the bytes '+' (43) and
'-' (45), and the broken-format branch applied at the non-tab byte 65. -/
theorem fna_c9_link_orientation_witness :
    linkOris (fna_read_gfa fnaCtx0 0
        ⟨[76, 9, 49, 9, 43, 9, 50, 9, 45, 9, 52, 77, 10], false⟩).1 =
      some (1, -1) ∧
    (fna_read_gfa fnaCtx0 0 ⟨[76, 9, 49, 9, 43, 65], false⟩).2.1 =
      FNA_ERROR_BROKEN_FORMAT := by
  constructor
  · have h := (fna_c9_link_orientation 43 45 0 (by decide) (by decide)).1
    simpa using h
  · exact ((fna_c9_link_orientation 43 45 0 (by decide) (by decide)).2
      65 [] (by decide)).2

/-- C8 counterexample: the margins are stored into uint16_t fields, so the
configured value 65535 rounds up to 65536 and is stored truncated as 0,
which is smaller than the configured value, not the configured value
rounded up to a multiple of 16. -/
theorem fna_c8_margin_truncation_counterexample :
    (fna_init_ctx { head_margin := 65535 }).head_margin = 0 ∧
    roundup16 65535 = 65536 ∧
    ¬ (fna_init_ctx { head_margin := 65535 }).head_margin = roundup16 65535 ∧
    (fna_init_ctx { head_margin := 65535 }).head_margin < 65535 := by
  decide

/-- C8 (amended): each stored margin is the configured value rounded up to
a multiple of 16 and then truncated to 16 bits, so it is always a multiple
of 16, and for configured values up to 65520 it is exactly the least
multiple of 16 that is at least the configured value; and in every
returned segment record, whether produced by the FASTA, FASTQ or GFA
segment reader, the record offset equals the head margin, the name offset
equals the record offset plus the fixed header size (so the name begins at
head margin + header size from the allocation base), and the byte there
really starts the name region, whose terminator sits at
nameOff + nameLen. -/
theorem fna_c8_margins_and_name_offset :
    (∀ p : FnaParams,
      (fna_init_ctx p).head_margin % 16 = 0 ∧
      (fna_init_ctx p).tail_margin % 16 = 0 ∧
      (fna_init_ctx p).seq_head_margin % 16 = 0 ∧
      (fna_init_ctx p).seq_tail_margin % 16 = 0) ∧
    (∀ p : FnaParams,
      (p.head_margin ≤ 65520 →
        p.head_margin ≤ (fna_init_ctx p).head_margin ∧
        (fna_init_ctx p).head_margin < p.head_margin + 16) ∧
      (p.tail_margin ≤ 65520 →
        p.tail_margin ≤ (fna_init_ctx p).tail_margin ∧
        (fna_init_ctx p).tail_margin < p.tail_margin + 16) ∧
      (p.seq_head_margin ≤ 65520 →
        p.seq_head_margin ≤ (fna_init_ctx p).seq_head_margin ∧
        (fna_init_ctx p).seq_head_margin < p.seq_head_margin + 16) ∧
      (p.seq_tail_margin ≤ 65520 →
        p.seq_tail_margin ≤ (fna_init_ctx p).seq_tail_margin ∧
        (fna_init_ctx p).seq_tail_margin < p.seq_tail_margin + 16)) ∧
    (∀ (cfg : FnaCtx) (s : ZfStream) (r : Segment),
      (fna_read_fasta cfg s).1 = some r →
      r.recOff = r.headMargin ∧ r.headMargin = cfg.head_margin ∧
      r.nameOff = r.recOff + hdrSize ∧
      r.buf[r.nameOff + r.nameLen]? = some 0) ∧
    (∀ (cfg : FnaCtx) (s : ZfStream) (r : Segment),
      (fna_read_fastq cfg s).1 = some r →
      r.recOff = r.headMargin ∧ r.headMargin = cfg.head_margin ∧
      r.nameOff = r.recOff + hdrSize ∧
      r.buf[r.nameOff + r.nameLen]? = some 0) ∧
    (∀ (cfg : FnaCtx) (s : ZfStream) (r : Segment),
      (fna_read_gfa_seq cfg s).1 = some r →
      r.recOff = r.headMargin ∧ r.headMargin = cfg.head_margin ∧
      r.nameOff = r.recOff + hdrSize ∧
      r.buf[r.nameOff + r.nameLen]? = some 0) := by
  refine ⟨fun p => ?_, fun p => ?_, fun cfg s r h => ?_, fun cfg s r h => ?_,
    fun cfg s r h => ?_⟩
  · simp only [fna_init_ctx, roundup16]
    omega
  · simp only [fna_init_ctx, roundup16]
    refine ⟨fun hm => ?_, fun hm => ?_, fun hm => ?_, fun hm => ?_⟩ <;> omega
  · obtain ⟨nm, rest, hbuf, hhm, hrec, hnoff, hnlen, hprops⟩ :=
      fna_read_fasta_shape cfg s r h
    have hpre : (List.replicate cfg.head_margin 0 ++
        List.replicate hdrSize 0).length = cfg.head_margin + hdrSize := by
      simp
    refine ⟨hrec.trans hhm.symm, hhm, by rw [hnoff, hrec], ?_⟩
    rw [hbuf, hnoff, hnlen, ← hpre]
    exact (buf_name_region _ nm rest).1
  · obtain ⟨nm, rest, hbuf, hhm, hrec, hnoff, hnlen, hprops⟩ :=
      fna_read_fastq_shape cfg s r h
    have hpre : (List.replicate cfg.head_margin 0 ++
        List.replicate hdrSize 0).length = cfg.head_margin + hdrSize := by
      simp
    refine ⟨hrec.trans hhm.symm, hhm, by rw [hnoff, hrec], ?_⟩
    rw [hbuf, hnoff, hnlen, ← hpre]
    exact (buf_name_region _ nm rest).1
  · obtain ⟨nm, rest, hbuf, hhm, hrec, hnoff, hnlen, hprops⟩ :=
      fna_read_gfa_seq_shape cfg s r h
    have hpre : (List.replicate cfg.head_margin 0 ++
        List.replicate hdrSize 0).length = cfg.head_margin + hdrSize := by
      simp
    refine ⟨hrec.trans hhm.symm, hhm, by rw [hnoff, hrec], ?_⟩
    rw [hbuf, hnoff, hnlen, ← hpre]
    exact (buf_name_region _ nm rest).1

/-- A default segment value (used only as the getD fallback of witnesses). -/
def segFallback : Segment :=
  { buf := [], headMargin := 0, recOff := 0, nameOff := 0, nameLen := 0,
    seqOff := 0, seqLen := 0, qualOff := 0, qualLen := 0 }

/-- Parameters with margins 3, 5, 17, 100 (stored as 16, 16, 32, 112). -/
def c8Params : FnaParams :=
  { head_margin := 3, tail_margin := 5, seq_head_margin := 17,
    seq_tail_margin := 100 }

/-- The first FASTA record parsed with the c8Params margins. -/
def c8Rec : Segment :=
  (fna_read_fasta (fna_init_ctx c8Params) fastaS1).1.getD segFallback

/-- The first FASTQ record parsed with the c8Params margins. -/
def c8RecQ : Segment :=
  (fna_read_fastq (fna_init_ctx c8Params)
    (fna_read_head_fastq ⟨fastqInput, false⟩).2).1.getD segFallback

/-- A GFA segment record parsed with the c8Params margins from the S-line
remainder "1\tAC\n". -/
def c8RecG : Segment :=
  (fna_read_gfa_seq (fna_init_ctx c8Params)
    ⟨[49, 9, 65, 67, 10], false⟩).1.getD segFallback

/-- C8 witness: the amended theorem applied at the parameters 3, 5, 17, 100
and at one concrete record of each of the three segment readers parsed
with those margins. -/
theorem fna_c8_margins_and_name_offset_witness :
    ((fna_init_ctx c8Params).head_margin % 16 = 0 ∧
     3 ≤ (fna_init_ctx c8Params).head_margin) ∧
    ((fna_read_fasta (fna_init_ctx c8Params) fastaS1).1 = some c8Rec ∧
     c8Rec.nameOff = c8Rec.recOff + hdrSize ∧
     c8Rec.buf[c8Rec.nameOff + c8Rec.nameLen]? = some 0) ∧
    ((fna_read_fastq (fna_init_ctx c8Params)
        (fna_read_head_fastq ⟨fastqInput, false⟩).2).1 = some c8RecQ ∧
     c8RecQ.nameOff = c8RecQ.recOff + hdrSize) ∧
    ((fna_read_gfa_seq (fna_init_ctx c8Params)
        ⟨[49, 9, 65, 67, 10], false⟩).1 = some c8RecG ∧
     c8RecG.nameOff = c8RecG.recOff + hdrSize) :=
  ⟨⟨(fna_c8_margins_and_name_offset.1 c8Params).1,
    ((fna_c8_margins_and_name_offset.2.1 c8Params).1 (by decide)).1⟩,
   ⟨by decide,
    (fna_c8_margins_and_name_offset.2.2.1 (fna_init_ctx c8Params) fastaS1 c8Rec
      (by decide)).2.2.1,
    (fna_c8_margins_and_name_offset.2.2.1 (fna_init_ctx c8Params) fastaS1 c8Rec
      (by decide)).2.2.2⟩,
   ⟨by decide,
    (fna_c8_margins_and_name_offset.2.2.2.1 (fna_init_ctx c8Params)
      (fna_read_head_fastq ⟨fastqInput, false⟩).2 c8RecQ (by decide)).2.2.1⟩,
   ⟨by decide,
    (fna_c8_margins_and_name_offset.2.2.2.2 (fna_init_ctx c8Params)
      ⟨[49, 9, 65, 67, 10], false⟩ c8RecG (by decide)).2.2.1⟩⟩

/-- Name-region invariant derived from the common record shape: the byte at
nameOff + nameLen is the zero terminator, and a nonempty name starts and
ends with bytes that are not space-classified. -/
theorem seg_name_region_inv (cfg : FnaCtx) (r : Segment) (nm rest : List Nat)
    (hbuf : r.buf = (List.replicate cfg.head_margin 0 ++
      List.replicate hdrSize 0) ++ nm ++ [0] ++ rest)
    (hnoff : r.nameOff = cfg.head_margin + hdrSize)
    (hnlen : r.nameLen = nm.length)
    (hprops : nm = [] ∨
      ((∃ x, nm.head? = some x ∧ space_table (x % 256) ≠ 1) ∧
       (∃ y, nm.getLast? = some y ∧ space_table (y % 256) ≠ 1))) :
    r.buf[r.nameOff + r.nameLen]? = some 0 ∧
    (r.nameLen ≠ 0 →
      (∃ x, r.buf[r.nameOff]? = some x ∧ space_table (x % 256) ≠ 1) ∧
      (∃ y, r.buf[r.nameOff + r.nameLen - 1]? = some y ∧
        space_table (y % 256) ≠ 1)) := by
  have hpre : (List.replicate cfg.head_margin 0 ++
      List.replicate hdrSize 0).length = cfg.head_margin + hdrSize := by
    simp
  constructor
  · rw [hbuf, hnoff, hnlen, ← hpre]
    exact (buf_name_region _ nm rest).1
  · intro hlen0
    have hne : nm ≠ [] := by
      intro h0
      rw [h0] at hnlen
      simp at hnlen
      exact hlen0 hnlen
    rcases hprops with h0 | ⟨⟨x, hx, hxn⟩, ⟨y, hy, hyn⟩⟩
    · exact absurd h0 hne
    · refine ⟨⟨x, ?_, hxn⟩, ⟨y, ?_, hyn⟩⟩
      · rw [hbuf, hnoff, ← hpre, ((buf_name_region _ nm rest).2 hne).1]
        exact hx
      · rw [hbuf, hnoff, hnlen, ← hpre, ((buf_name_region _ nm rest).2 hne).2]
        exact hy

/-- C10: in every returned segment record, whether produced by the FASTA,
FASTQ or GFA segment reader, the name bytes are terminated by a zero byte
at index nameOff + nameLen of the backing allocation, and a nonempty name
neither starts nor ends with a space-classified byte (leading and trailing
spaces were trimmed, so nameLen is the trimmed length). -/
theorem fna_c10_name_nul_and_trimmed :
    (∀ (cfg : FnaCtx) (s : ZfStream) (r : Segment),
      (fna_read_fasta cfg s).1 = some r →
      r.buf[r.nameOff + r.nameLen]? = some 0 ∧
      (r.nameLen ≠ 0 →
        (∃ x, r.buf[r.nameOff]? = some x ∧ space_table (x % 256) ≠ 1) ∧
        (∃ y, r.buf[r.nameOff + r.nameLen - 1]? = some y ∧
          space_table (y % 256) ≠ 1))) ∧
    (∀ (cfg : FnaCtx) (s : ZfStream) (r : Segment),
      (fna_read_fastq cfg s).1 = some r →
      r.buf[r.nameOff + r.nameLen]? = some 0 ∧
      (r.nameLen ≠ 0 →
        (∃ x, r.buf[r.nameOff]? = some x ∧ space_table (x % 256) ≠ 1) ∧
        (∃ y, r.buf[r.nameOff + r.nameLen - 1]? = some y ∧
          space_table (y % 256) ≠ 1))) ∧
    (∀ (cfg : FnaCtx) (s : ZfStream) (r : Segment),
      (fna_read_gfa_seq cfg s).1 = some r →
      r.buf[r.nameOff + r.nameLen]? = some 0 ∧
      (r.nameLen ≠ 0 →
        (∃ x, r.buf[r.nameOff]? = some x ∧ space_table (x % 256) ≠ 1) ∧
        (∃ y, r.buf[r.nameOff + r.nameLen - 1]? = some y ∧
          space_table (y % 256) ≠ 1))) := by
  refine ⟨fun cfg s r h => ?_, fun cfg s r h => ?_, fun cfg s r h => ?_⟩
  · obtain ⟨nm, rest, hbuf, _, _, hnoff, hnlen, hprops⟩ :=
      fna_read_fasta_shape cfg s r h
    exact seg_name_region_inv cfg r nm rest hbuf hnoff hnlen hprops
  · obtain ⟨nm, rest, hbuf, _, _, hnoff, hnlen, hprops⟩ :=
      fna_read_fastq_shape cfg s r h
    exact seg_name_region_inv cfg r nm rest hbuf hnoff hnlen hprops
  · obtain ⟨nm, rest, hbuf, _, _, hnoff, hnlen, hprops⟩ :=
      fna_read_gfa_seq_shape cfg s r h
    exact seg_name_region_inv cfg r nm rest hbuf hnoff hnlen hprops

/-- The first FASTA record as a concrete value. -/
def fastaRec1 : Segment := fastaR1.1.getD segFallback

/-- The first FASTQ record as a concrete value. -/
def fastqRec1 : Segment := fastqR1.1.getD segFallback

/-- A GFA segment record parsed from the S-line remainder "1\tAC\n". -/
def gfaSegRec : Segment :=
  (fna_read_gfa_seq fnaCtx0 ⟨[49, 9, 65, 67, 10], false⟩).1.getD segFallback

/-- C10 witness: the invariant applied to one concrete record of each of
the three drivers. -/
theorem fna_c10_name_nul_and_trimmed_witness :
    (fastaR1.1 = some fastaRec1 ∧
     fastaRec1.buf[fastaRec1.nameOff + fastaRec1.nameLen]? = some 0) ∧
    (fastqR1.1 = some fastqRec1 ∧
     fastqRec1.buf[fastqRec1.nameOff + fastqRec1.nameLen]? = some 0) ∧
    ((fna_read_gfa_seq fnaCtx0 ⟨[49, 9, 65, 67, 10], false⟩).1 = some gfaSegRec ∧
     gfaSegRec.buf[gfaSegRec.nameOff + gfaSegRec.nameLen]? = some 0) :=
  ⟨⟨by decide,
    (fna_c10_name_nul_and_trimmed.1 fnaCtx0 fastaS1 fastaRec1 (by decide)).1⟩,
   ⟨by decide,
    (fna_c10_name_nul_and_trimmed.2.1 fnaCtxSkipQ
      (fna_read_head_fastq ⟨fastqInput, false⟩).2 fastqRec1 (by decide)).1⟩,
   ⟨by decide,
    (fna_c10_name_nul_and_trimmed.2.2 fnaCtx0 ⟨[49, 9, 65, 67, 10], false⟩
      gfaSegRec (by decide)).1⟩⟩
